import Mathlib

/-!
Verification of the chat service (`apps/api/src/chat/chat.service.ts`) of DatasetLoom:
cursor-based pagination over visible chats (`getChatsByUserId`) and the dataset-export
pipeline (`exportChatDataset`), as a shallow embedding over an explicit list-of-rows store.
-/

namespace DatasetLoom

/-! ## Data model -/

/-- `ChatVisibilityType` from `@repo/shared-types`. -/
inductive ChatVisibilityType
  | PRIVATE
  | PUBLIC
deriving DecidableEq

/-- A row of the `chat` table (the fields the service reads).  `createdAt` is modelled
as a natural-number timestamp. -/
structure Chat where
  id : String
  userId : String
  projectId : String
  visibility : ChatVisibilityType
  createdAt : Nat
deriving DecidableEq

/-- The argument object of `getChatsByUserId` (type `PaginationParams`, lines 13-19). -/
structure PaginationParams where
  id : String
  projectId : String
  limit : Nat
  startingAfter : Option String
  endingBefore : Option String

/-- The `{ chats, hasMore }` object returned by `getChatsByUserId` (lines 124-127). -/
structure ChatPage where
  chats : List Chat
  hasMore : Bool
deriving DecidableEq

/-- The error thrown on cursor-resolution failure:
`new Error("Chat with id ... not found")` (lines 75 and 96), carrying the cursor id. -/
inductive ServiceError
  | notFound (id : String)
deriving DecidableEq

instance {ε α : Type} [DecidableEq ε] [DecidableEq α] : DecidableEq (Except ε α) :=
  fun a b =>
    match a, b with
    | Except.ok x, Except.ok y =>
        if h : x = y then Decidable.isTrue (congrArg Except.ok h)
        else Decidable.isFalse (fun hh => h (Except.ok.inj hh))
    | Except.error x, Except.error y =>
        if h : x = y then Decidable.isTrue (congrArg Except.error h)
        else Decidable.isFalse (fun hh => h (Except.error.inj hh))
    | Except.ok _, Except.error _ => Decidable.isFalse (fun hh => Except.noConfusion hh)
    | Except.error _, Except.ok _ => Decidable.isFalse (fun hh => Except.noConfusion hh)

/-! ## Store primitives

The Prisma store is modelled as the list of rows of the queried table.  `findUnique` on a
key returns the first row with that id; `findMany` with a `where` filter, `orderBy
createdAt` and `take` is a filter followed by a stable sort on `createdAt` and a prefix. -/

/-- JavaScript truthiness of an optional string parameter: `undefined`, `null` and the
empty string are falsy; this is the test `if (startingAfter)` performs. -/
def truthy : Option String → Bool
  | none => false
  | some s => !(s == "")

/-- `prisma.chat.findUnique({ where: { id } })`. -/
def findUniqueChat (db : List Chat) (cid : String) : Option Chat :=
  db.find? (fun c => c.id == cid)

/-- Descending `createdAt` order used by every `findMany` of the pagination code:
`a` may come before `b` when `b.createdAt ≤ a.createdAt`. -/
def chatDesc : Chat → Chat → Prop := fun a b => b.createdAt ≤ a.createdAt

instance : DecidableRel chatDesc := fun a b =>
  inferInstanceAs (Decidable (b.createdAt ≤ a.createdAt))

instance : IsTotal Chat chatDesc :=
  ⟨fun a b => Nat.le_total b.createdAt a.createdAt⟩

instance : IsTrans Chat chatDesc :=
  ⟨fun _ _ _ hab hbc => Nat.le_trans hbc hab⟩

/-- `orderBy: { createdAt: "desc" }`, as a stable sort of the matching rows. -/
def sortChatsDesc (l : List Chat) : List Chat :=
  l.insertionSort chatDesc

/-- `prisma.chat.findMany({ where, orderBy: { createdAt: "desc" }, take })`. -/
def findManyChats (db : List Chat) (w : Chat → Bool) (tk : Nat) : List Chat :=
  (sortChatsDesc (db.filter w)).take tk

/-! ## getChatsByUserId (lines 55-132) -/

/-- The shared visibility condition `baseWhere` (lines 60-65): owned by the caller in the
requested project, or public in the requested project. -/
def baseWhere (id projectId : String) (c : Chat) : Bool :=
  (c.userId == id && c.projectId == projectId) ||
  (c.visibility == ChatVisibilityType.PUBLIC && c.projectId == projectId)

/-- Lines 122-127: `hasMore = chats.length > limit`, and the fetched rows are truncated to
the first `limit` rows when `hasMore`. -/
def mkPage (chats : List Chat) (limit : Nat) : ChatPage :=
  { chats := if decide (chats.length > limit) then chats.take limit else chats,
    hasMore := decide (chats.length > limit) }

/-- `getChatsByUserId` (lines 55-132).  `extendedLimit = limit + 1` is the overscan;
the three branches select the `where` clause; cursor-resolution failure throws. -/
def getChatsByUserId (db : List Chat) (p : PaginationParams) : Except ServiceError ChatPage :=
  match
    (if truthy p.startingAfter then
      match findUniqueChat db (p.startingAfter.getD "") with
      | none => Except.error (ServiceError.notFound (p.startingAfter.getD ""))
      | some cursorChat =>
          Except.ok (findManyChats db
            (fun c => baseWhere p.id p.projectId c && decide (cursorChat.createdAt < c.createdAt))
            (p.limit + 1))
    else if truthy p.endingBefore then
      match findUniqueChat db (p.endingBefore.getD "") with
      | none => Except.error (ServiceError.notFound (p.endingBefore.getD ""))
      | some cursorChat =>
          Except.ok (findManyChats db
            (fun c => baseWhere p.id p.projectId c && decide (c.createdAt < cursorChat.createdAt))
            (p.limit + 1))
    else
      Except.ok (findManyChats db (baseWhere p.id p.projectId) (p.limit + 1))
      : Except ServiceError (List Chat))
  with
  | .error e => .error e
  | .ok chats => .ok (mkPage chats p.limit)

/-- The effective `where` predicate of the branch `getChatsByUserId` takes, when its
cursor (if any) resolves: base predicate plus the cursor's `createdAt` window. -/
def resolvedWhere (db : List Chat) (p : PaginationParams) : Option (Chat → Bool) :=
  if truthy p.startingAfter then
    match findUniqueChat db (p.startingAfter.getD "") with
    | none => none
    | some cursorChat =>
        some (fun c => baseWhere p.id p.projectId c && decide (cursorChat.createdAt < c.createdAt))
  else if truthy p.endingBefore then
    match findUniqueChat db (p.endingBefore.getD "") with
    | none => none
    | some cursorChat =>
        some (fun c => baseWhere p.id p.projectId c && decide (c.createdAt < cursorChat.createdAt))
  else
    some (baseWhere p.id p.projectId)

/-- The cursor id the call tries to resolve (startingAfter takes precedence). -/
def activeCursor (p : PaginationParams) : String :=
  if truthy p.startingAfter then p.startingAfter.getD "" else p.endingBefore.getD ""

/-! ## Characterization of `getChatsByUserId` -/

theorem sortChatsDesc_length (l : List Chat) : (sortChatsDesc l).length = l.length :=
  List.length_insertionSort chatDesc l

theorem mem_sortChatsDesc {l : List Chat} {c : Chat} : c ∈ sortChatsDesc l ↔ c ∈ l :=
  List.mem_insertionSort chatDesc

/-- Overscan-and-trim: fetching `L + 1` rows of `s` and trimming via `mkPage` yields the
first `L` rows together with the flag `L < s.length`. -/
theorem mkPage_take (s : List Chat) (L : Nat) :
    mkPage (s.take (L + 1)) L = ⟨s.take L, decide (L < s.length)⟩ := by
  unfold mkPage
  by_cases h : L < s.length
  · have hlen : (s.take (L + 1)).length = L + 1 := List.length_take_of_le (by omega)
    have hcond : decide ((s.take (L + 1)).length > L) = true := by
      simp [hlen]
    have hdec : decide (L < s.length) = true := by simp [h]
    simp only [hcond, if_true, hdec]
    rw [List.take_take, inf_eq_left.mpr (Nat.le_succ L)]
  · have hle : s.length ≤ L := Nat.le_of_not_lt h
    have hs : s.take (L + 1) = s := List.take_of_length_le (by omega)
    have hcond : decide ((s.take (L + 1)).length > L) = false := by
      simp only [hs, gt_iff_lt, decide_eq_false_iff_not, Nat.not_lt]
      exact hle
    have hdec : decide (L < s.length) = false := by
      simp only [decide_eq_false_iff_not, Nat.not_lt]
      exact hle
    simp only [hcond, hdec, if_false, hs]
    congr 1
    exact (List.take_of_length_le hle).symm

/-- Running `getChatsByUserId`: the call fails with `NotFound` on the active cursor when
that cursor does not resolve; otherwise it returns the first `limit` rows of the matching
rows in descending `createdAt` order, with `hasMore` true iff more matching rows exist. -/
theorem getChatsByUserId_run (db : List Chat) (p : PaginationParams) :
    getChatsByUserId db p =
      match resolvedWhere db p with
      | none => Except.error (ServiceError.notFound (activeCursor p))
      | some w =>
          Except.ok ⟨(sortChatsDesc (db.filter w)).take p.limit,
                     decide (p.limit < (db.filter w).length)⟩ := by
  unfold getChatsByUserId resolvedWhere activeCursor findManyChats
  by_cases h1 : truthy p.startingAfter
  · simp only [h1, if_true]
    cases hfu : findUniqueChat db (p.startingAfter.getD "") with
    | none => simp
    | some cursorChat =>
        simp only [mkPage_take, sortChatsDesc_length]
  · simp only [h1, Bool.false_eq_true, if_false]
    by_cases h2 : truthy p.endingBefore
    · simp only [h2, if_true]
      cases hfu : findUniqueChat db (p.endingBefore.getD "") with
      | none => simp
      | some cursorChat =>
          simp only [mkPage_take, sortChatsDesc_length]
    · simp only [h2, Bool.false_eq_true, if_false, mkPage_take, sortChatsDesc_length]

/-- Whatever branch is taken, the effective predicate implies the base visibility
predicate. -/
theorem resolvedWhere_base {db : List Chat} {p : PaginationParams} {w : Chat → Bool}
    (h : resolvedWhere db p = some w) (c : Chat) (hc : w c = true) :
    baseWhere p.id p.projectId c = true := by
  unfold resolvedWhere at h
  split at h
  · split at h
    · exact absurd h (by simp)
    · cases h
      exact ((Bool.and_eq_true _ _).mp hc).1
  · split at h
    · split at h
      · exact absurd h (by simp)
      · cases h
        exact ((Bool.and_eq_true _ _).mp hc).1
    · cases h
      exact hc

theorem baseWhere_projectId {id pid : String} {c : Chat}
    (h : baseWhere id pid c = true) : c.projectId = pid := by
  simp only [baseWhere, Bool.or_eq_true, Bool.and_eq_true, beq_iff_eq] at h
  rcases h with ⟨_, h⟩ | ⟨_, h⟩ <;> exact h

/-- A call with a resolving cursor (or no cursor) succeeds with the trimmed page. -/
theorem getChatsByUserId_ok_of_resolved {db : List Chat} {p : PaginationParams}
    {w : Chat → Bool} (h : resolvedWhere db p = some w) :
    getChatsByUserId db p =
      Except.ok ⟨(sortChatsDesc (db.filter w)).take p.limit,
                 decide (p.limit < (db.filter w).length)⟩ := by
  rw [getChatsByUserId_run, h]

/-! ## Example store used by the concrete witnesses -/

/-- Five chats of one user in one project, timestamps 1..5. -/
def exDb : List Chat :=
  [⟨"a", "u", "p", ChatVisibilityType.PRIVATE, 1⟩,
   ⟨"b", "u", "p", ChatVisibilityType.PRIVATE, 2⟩,
   ⟨"c", "u", "p", ChatVisibilityType.PRIVATE, 3⟩,
   ⟨"d", "u", "p", ChatVisibilityType.PRIVATE, 4⟩,
   ⟨"e", "u", "p", ChatVisibilityType.PRIVATE, 5⟩]

/-! ## Claims C1, C2, C3 -/

/-- C1: for every call of `getChatsByUserId` with positive `limit` that returns a page,
the page holds at most `limit` chats; it is exactly the first `limit` rows (descending
`createdAt`) matching the branch's resolved predicate — in particular the overscan fetch
is truncated to the first `limit` rows — and `hasMore = true` iff at least one further
matching row existed beyond the returned page. -/
theorem c1_page_size_contract (db : List Chat) (p : PaginationParams) (pg : ChatPage)
    (hL : 0 < p.limit) (h : getChatsByUserId db p = Except.ok pg) :
    pg.chats.length ≤ p.limit ∧
    ∃ w, resolvedWhere db p = some w ∧
      pg.chats = (sortChatsDesc (db.filter w)).take p.limit ∧
      (pg.hasMore = true ↔ p.limit < (db.filter w).length) := by
  have hrun := getChatsByUserId_run db p
  rw [h] at hrun
  cases hres : resolvedWhere db p with
  | none =>
      rw [hres] at hrun
      exact absurd hrun (by simp)
  | some w =>
      rw [hres] at hrun
      have hpg : pg = ⟨(sortChatsDesc (db.filter w)).take p.limit,
                       decide (p.limit < (db.filter w).length)⟩ := by
        exact Except.ok.inj hrun
      refine ⟨?_, w, rfl, ?_, ?_⟩
      · rw [hpg]
        exact List.length_take_le _ _
      · rw [hpg]
      · rw [hpg]
        simp

/-- Witness for C1 on the concrete store `exDb` with `limit = 2` and no cursor. -/
theorem c1_page_size_contract_witness :
    (0 < (2 : Nat) ∧
      getChatsByUserId exDb ⟨"u", "p", 2, none, none⟩ =
        Except.ok ⟨[⟨"e", "u", "p", ChatVisibilityType.PRIVATE, 5⟩,
                    ⟨"d", "u", "p", ChatVisibilityType.PRIVATE, 4⟩], true⟩) ∧
    ((⟨[⟨"e", "u", "p", ChatVisibilityType.PRIVATE, 5⟩,
        ⟨"d", "u", "p", ChatVisibilityType.PRIVATE, 4⟩], true⟩ : ChatPage).chats.length ≤ 2 ∧
      ∃ w, resolvedWhere exDb ⟨"u", "p", 2, none, none⟩ = some w ∧
        (⟨[⟨"e", "u", "p", ChatVisibilityType.PRIVATE, 5⟩,
           ⟨"d", "u", "p", ChatVisibilityType.PRIVATE, 4⟩], true⟩ : ChatPage).chats =
          (sortChatsDesc (exDb.filter w)).take 2 ∧
        ((⟨[⟨"e", "u", "p", ChatVisibilityType.PRIVATE, 5⟩,
            ⟨"d", "u", "p", ChatVisibilityType.PRIVATE, 4⟩], true⟩ : ChatPage).hasMore = true ↔
          2 < (exDb.filter w).length)) :=
  ⟨⟨by decide, by rfl⟩,
   c1_page_size_contract exDb ⟨"u", "p", 2, none, none⟩ _ (by decide) (by rfl)⟩

/-- C2: every chat in a returned page satisfies the visibility predicate — it is owned by
the caller or public, and always belongs to the requested project (so a chat of another
project never appears) — and, conversely, every stored chat that matches the resolved
predicate and lies within the first `limit` rows of the descending ordering appears in
the page. -/
theorem c2_visibility (db : List Chat) (p : PaginationParams) (pg : ChatPage)
    (h : getChatsByUserId db p = Except.ok pg) :
    (∀ c ∈ pg.chats, baseWhere p.id p.projectId c = true ∧ c.projectId = p.projectId) ∧
    (∀ w, resolvedWhere db p = some w →
      ∀ c ∈ (sortChatsDesc (db.filter w)).take p.limit, c ∈ pg.chats) := by
  have hrun := getChatsByUserId_run db p
  rw [h] at hrun
  cases hres : resolvedWhere db p with
  | none =>
      rw [hres] at hrun
      exact absurd hrun (by simp)
  | some w =>
      rw [hres] at hrun
      have hpg : pg = ⟨(sortChatsDesc (db.filter w)).take p.limit,
                       decide (p.limit < (db.filter w).length)⟩ :=
        Except.ok.inj hrun
      constructor
      · intro c hc
        rw [hpg] at hc
        have hmem : c ∈ sortChatsDesc (db.filter w) := List.mem_of_mem_take hc
        have hfil : c ∈ db.filter w := mem_sortChatsDesc.mp hmem
        have hw : w c = true := (List.mem_filter.mp hfil).2
        have hbase : baseWhere p.id p.projectId c = true := resolvedWhere_base hres c hw
        exact ⟨hbase, baseWhere_projectId hbase⟩
      · intro w2 hw2 c hc
        have hww : w = w2 := Option.some.inj hw2
        subst hww
        rw [hpg]
        exact hc

/-- Witness for C2 on the concrete store `exDb`. -/
theorem c2_visibility_witness :
    getChatsByUserId exDb ⟨"u", "p", 2, none, none⟩ =
      Except.ok ⟨[⟨"e", "u", "p", ChatVisibilityType.PRIVATE, 5⟩,
                  ⟨"d", "u", "p", ChatVisibilityType.PRIVATE, 4⟩], true⟩ ∧
    ((∀ c ∈ (⟨[⟨"e", "u", "p", ChatVisibilityType.PRIVATE, 5⟩,
               ⟨"d", "u", "p", ChatVisibilityType.PRIVATE, 4⟩], true⟩ : ChatPage).chats,
        baseWhere "u" "p" c = true ∧ c.projectId = "p") ∧
     (∀ w, resolvedWhere exDb ⟨"u", "p", 2, none, none⟩ = some w →
        ∀ c ∈ (sortChatsDesc (exDb.filter w)).take 2,
          c ∈ (⟨[⟨"e", "u", "p", ChatVisibilityType.PRIVATE, 5⟩,
                 ⟨"d", "u", "p", ChatVisibilityType.PRIVATE, 4⟩], true⟩ : ChatPage).chats)) :=
  ⟨by rfl, c2_visibility exDb ⟨"u", "p", 2, none, none⟩ _ (by rfl)⟩

/-- C3: when the active cursor of the call (startingAfter if truthy, otherwise
endingBefore) does not resolve to an existing chat, `getChatsByUserId` fails with the
`NotFound` error naming that cursor id — it never returns a page. -/
theorem c3_unknown_cursor_not_found (db : List Chat) (p : PaginationParams)
    (hc : truthy p.startingAfter = true ∨
          (truthy p.startingAfter = false ∧ truthy p.endingBefore = true))
    (hn : findUniqueChat db (activeCursor p) = none) :
    getChatsByUserId db p = Except.error (ServiceError.notFound (activeCursor p)) := by
  have hrw : resolvedWhere db p = none := by
    rcases hc with h1 | ⟨h1, h2⟩
    · have hn1 : findUniqueChat db (p.startingAfter.getD "") = none := by
        unfold activeCursor at hn
        rw [h1] at hn
        simpa using hn
      unfold resolvedWhere
      simp [h1, hn1]
    · have hn1 : findUniqueChat db (p.endingBefore.getD "") = none := by
        unfold activeCursor at hn
        rw [h1] at hn
        simpa using hn
      unfold resolvedWhere
      simp [h1, h2, hn1]
  rw [getChatsByUserId_run, hrw]

/-- Witness for C3: the cursor id "zz" does not exist in `exDb`. -/
theorem c3_unknown_cursor_not_found_witness :
    ((truthy (some "zz") = true ∨
        (truthy (some "zz") = false ∧ truthy (none : Option String) = true)) ∧
      findUniqueChat exDb (activeCursor ⟨"u", "p", 2, some "zz", none⟩) = none) ∧
    getChatsByUserId exDb ⟨"u", "p", 2, some "zz", none⟩ =
      Except.error (ServiceError.notFound (activeCursor ⟨"u", "p", 2, some "zz", none⟩)) :=
  ⟨⟨Or.inl (by decide), by decide⟩,
   c3_unknown_cursor_not_found exDb ⟨"u", "p", 2, some "zz", none⟩
     (Or.inl (by decide)) (by decide)⟩

/-! ## Claims C8, C9 -/

/-- C8 counterexample: supplying both cursors is not rejected.  With `startingAfter = "a"`
and `endingBefore = "e"` the call succeeds and returns the forward page (everything newer
than chat "a", newest first) — `endingBefore` is silently ignored.  (Had `endingBefore`
been used, the page would have been the chats older than "e", i.e. ending with "a".) -/
theorem c8_both_cursors_counterexample :
    getChatsByUserId exDb ⟨"u", "p", 5, some "a", some "e"⟩ =
      Except.ok ⟨[⟨"e", "u", "p", ChatVisibilityType.PRIVATE, 5⟩,
                  ⟨"d", "u", "p", ChatVisibilityType.PRIVATE, 4⟩,
                  ⟨"c", "u", "p", ChatVisibilityType.PRIVATE, 3⟩,
                  ⟨"b", "u", "p", ChatVisibilityType.PRIVATE, 2⟩], false⟩ ∧
    ∀ e, getChatsByUserId exDb ⟨"u", "p", 5, some "a", some "e"⟩ ≠
      Except.error e := by
  refine ⟨by rfl, ?_⟩
  intro e he
  rw [show getChatsByUserId exDb ⟨"u", "p", 5, some "a", some "e"⟩ =
      Except.ok ⟨[⟨"e", "u", "p", ChatVisibilityType.PRIVATE, 5⟩,
                  ⟨"d", "u", "p", ChatVisibilityType.PRIVATE, 4⟩,
                  ⟨"c", "u", "p", ChatVisibilityType.PRIVATE, 3⟩,
                  ⟨"b", "u", "p", ChatVisibilityType.PRIVATE, 2⟩], false⟩ from rfl] at he
  exact Except.noConfusion he

/-- C8 amended: when both cursor parameters are supplied (startingAfter truthy), the call
does not fail; `startingAfter` takes precedence and `endingBefore` is ignored — the result
is identical to the same call with `endingBefore` removed. -/
theorem c8_both_cursors_amended (db : List Chat) (p : PaginationParams)
    (h : truthy p.startingAfter = true) :
    getChatsByUserId db p =
      getChatsByUserId db ⟨p.id, p.projectId, p.limit, p.startingAfter, none⟩ := by
  unfold getChatsByUserId
  simp only [h, if_true]

/-- Witness for the amended C8 at a call supplying both cursors. -/
theorem c8_both_cursors_amended_witness :
    truthy (some "a") = true ∧
    getChatsByUserId exDb ⟨"u", "p", 5, some "a", some "e"⟩ =
      getChatsByUserId exDb ⟨"u", "p", 5, some "a", none⟩ :=
  ⟨by decide, c8_both_cursors_amended exDb ⟨"u", "p", 5, some "a", some "e"⟩ (by decide)⟩

/-- C9 counterexample: `limit = 0` is not rejected as a caller error: on a store with
matching rows the call succeeds with an empty page (and `hasMore = true`). -/
theorem c9_zero_limit_counterexample :
    getChatsByUserId exDb ⟨"u", "p", 0, none, none⟩ = Except.ok ⟨[], true⟩ ∧
    ∀ e, getChatsByUserId exDb ⟨"u", "p", 0, none, none⟩ ≠ Except.error e := by
  refine ⟨by rfl, ?_⟩
  intro e he
  rw [show getChatsByUserId exDb ⟨"u", "p", 0, none, none⟩ = Except.ok ⟨[], true⟩
      from rfl] at he
  exact Except.noConfusion he

/-- C9 amended: `limit = 0` is not rejected: the call returns an empty page whose
`hasMore` flag is true iff at least one matching row exists; and (as the claim also
states) a call whose resolved predicate matches zero rows returns the empty page with
`hasMore = false`. -/
theorem c9_zero_limit_amended (db : List Chat) (p : PaginationParams) (w : Chat → Bool)
    (hres : resolvedWhere db p = some w) :
    (p.limit = 0 →
      getChatsByUserId db p = Except.ok ⟨[], decide (db.filter w ≠ [])⟩) ∧
    (db.filter w = [] → getChatsByUserId db p = Except.ok ⟨[], false⟩) := by
  constructor
  · intro h0
    rw [getChatsByUserId_run, hres, h0]
    simp only [List.take_zero]
    have : decide (0 < (db.filter w).length) = decide (db.filter w ≠ []) := by
      rcases Decidable.em (db.filter w = []) with hnil | hnil
      · simp [hnil]
      · have : 0 < (db.filter w).length := List.length_pos.mpr hnil
        simp [hnil, this]
    rw [this]
  · intro hf
    rw [getChatsByUserId_run, hres]
    have hsn : sortChatsDesc ([] : List Chat) = [] := rfl
    simp [hf, hsn]

/-- Witness for the amended C9: caller "v" in project "q" matches nothing in `exDb`, with
`limit = 0`, so both implications fire. -/
theorem c9_zero_limit_amended_witness :
    resolvedWhere exDb ⟨"v", "q", 0, none, none⟩ = some (baseWhere "v" "q") ∧
    ((0 = 0 →
        getChatsByUserId exDb ⟨"v", "q", 0, none, none⟩ =
          Except.ok ⟨[], decide (exDb.filter (baseWhere "v" "q") ≠ [])⟩) ∧
     (exDb.filter (baseWhere "v" "q") = [] →
        getChatsByUserId exDb ⟨"v", "q", 0, none, none⟩ = Except.ok ⟨[], false⟩)) :=
  ⟨rfl, c9_zero_limit_amended exDb ⟨"v", "q", 0, none, none⟩ (baseWhere "v" "q") rfl⟩

/-! ## Export pipeline (getMessagesByChatId, lines 45-52; exportChatDataset, lines 199-244)

`item.parts` is stored as a JSON string; `JSON.parse` either yields the decoded array of
typed segments or throws.  The `parts` column is therefore modelled by the outcome of
that parse: `decoded ps` stands for a string parsing to the segment list `ps`, and
`malformed` for a string on which `JSON.parse` throws. -/

/-- One content segment of a message: an object with a `type` tag and the `text`
payload. -/
structure Part where
  type : String
  text : String
deriving DecidableEq

/-- The stored `parts` column, by the outcome of `JSON.parse` on it. -/
inductive PartsEnc
  | decoded (ps : List Part)
  | malformed
deriving DecidableEq

/-- A row of the `chatMessages` table (the fields the export reads). -/
structure ChatMessages where
  id : String
  chatId : String
  role : String
  parts : PartsEnc
  createdAt : Nat
deriving DecidableEq

/-- Ascending `createdAt` order used by `getMessagesByChatId`. -/
def msgAsc : ChatMessages → ChatMessages → Prop := fun a b => a.createdAt ≤ b.createdAt

instance : DecidableRel msgAsc := fun a b =>
  inferInstanceAs (Decidable (a.createdAt ≤ b.createdAt))

instance : IsTotal ChatMessages msgAsc :=
  ⟨fun a b => Nat.le_total a.createdAt b.createdAt⟩

instance : IsTrans ChatMessages msgAsc :=
  ⟨fun _ _ _ hab hbc => Nat.le_trans hab hbc⟩

/-- `orderBy: { createdAt: "asc" }`, as a stable sort of the matching rows. -/
def sortMessagesAsc (l : List ChatMessages) : List ChatMessages :=
  l.insertionSort msgAsc

/-- `getMessagesByChatId` (lines 45-52): all messages of the chat, ascending
`createdAt`. -/
def getMessagesByChatId (db : List ChatMessages) (id : String) : List ChatMessages :=
  sortMessagesAsc (db.filter (fun m => m.chatId == id))

/-- A `{from, value}` turn of the ShareGPT output (`from` is a Lean keyword, hence
`from_`). -/
structure ShareGptEntry where
  from_ : String
  value : String
deriving DecidableEq

/-- The errors that can abort the export, by the step that throws them:
`storeFailure` for a throwing message fetch; `malformedContent` when formatting a message
throws (`JSON.parse` fails, or `.text` is read off `undefined` because no part has type
`text`); `archiveFailure` when appending an entry or finalizing the archive throws. -/
inductive ExportError
  | storeFailure
  | malformedContent
  | archiveFailure
deriving DecidableEq

/-- The body of the `chatData.map` callback (lines 211-217): decode `item.parts`, map the
role to the two-party tag, and take the text of the first segment of type `text`.
A parse failure or an absent `text` segment throws (`.text` of `undefined`). -/
def formatMessage (item : ChatMessages) : Except ExportError ShareGptEntry :=
  match item.parts with
  | PartsEnc.malformed => Except.error ExportError.malformedContent
  | PartsEnc.decoded parts =>
    match parts.find? (fun part => part.type == "text") with
    | none => Except.error ExportError.malformedContent
    | some part =>
        Except.ok { from_ := if item.role == "user" then "human" else "gpt",
                    value := part.text }

/-- `chatData.map(...)` with a throwing callback: formats every message in order and
propagates the first thrown error. -/
def formatAll : List ChatMessages → Except ExportError (List ShareGptEntry)
  | [] => Except.ok []
  | m :: ms =>
    match formatMessage m with
    | Except.error e => Except.error e
    | Except.ok entry =>
      match formatAll ms with
      | Except.error e => Except.error e
      | Except.ok rest => Except.ok (entry :: rest)

/-- The `{ conversations: [...] }` dataset envelope (line 219). -/
structure DatasetJson where
  conversations : List ShareGptEntry
deriving DecidableEq

/-- The `columns` object of the manifest (lines 229-231). -/
structure DatasetInfoColumns where
  messages : String
deriving DecidableEq

/-- The `DatasetLoom` object of `dataset_info.json` (lines 225-233). -/
structure DatasetInfoJson where
  file_name : String
  formatting : String
  columns : DatasetInfoColumns
deriving DecidableEq

/-- A JSON payload added to the archive: either the dataset file or the manifest. -/
inductive ArchivePayload
  | dataset (d : DatasetJson)
  | info (i : DatasetInfoJson)
deriving DecidableEq

/-- The entries of the archive, in the order they were added. -/
abbrev Archive := List (String × ArchivePayload)

/-- Modelled from the spec: `ExportUtil.addJsonToArchive(archive, name, payload)` (from
`@/utils/export.util`, whose source is not under `src/`) serializes `payload` and appends
it to the archive as an entry named `name`. -/
def addJsonToArchive (archive : Archive) (nm : String) (payload : ArchivePayload) :
    Archive :=
  archive ++ [(nm, payload)]

/-- The `{ filePath, filename }` object returned on success (line 239). -/
structure ExportResult where
  filePath : String
  filename : String
deriving DecidableEq

/-- Failure injection for the effectful steps of the export that are external to this
file's pure model: whether the store throws on the message fetch, whether archiver throws
while adding either entry, and whether `archive.finalize()` throws. -/
structure ExportEnv where
  fetchFails : Bool
  addDatasetFails : Bool
  addInfoFails : Bool
  finalizeFails : Bool
deriving DecidableEq

/-- An environment in which no external step fails. -/
def envOk : ExportEnv := ⟨false, false, false, false⟩

/-- `os.tmpdir()`. -/
def tmpdir : String := "/tmp"

/-- `path.join` for one directory and one file name. -/
def pathJoin (dir file : String) : String := dir ++ "/" ++ file

/-- The observable outcome of `exportChatDataset`: the returned value or thrown error,
whether a file is present at the destination path afterwards, and the entries of the
archive built at that path. -/
structure ExportOutcome where
  result : Except ExportError ExportResult
  fileExists : Bool
  archive : Archive
deriving DecidableEq

/-- The `try` block of `exportChatDataset` (lines 207-239): fetch the messages, format
them, add the dataset entry and the manifest entry, finalize, and return the built
archive together with the `{ filePath, filename }` object. -/
def exportBody (env : ExportEnv) (msgDb : List ChatMessages) (projectId chatId : String) :
    Except ExportError (Archive × ExportResult) :=
  match (if env.fetchFails then Except.error ExportError.storeFailure
         else Except.ok (getMessagesByChatId msgDb chatId)
         : Except ExportError (List ChatMessages)) with
  | Except.error e => Except.error e
  | Except.ok chatData =>
    match formatAll chatData with
    | Except.error e => Except.error e
    | Except.ok formattedData =>
      match (if env.addDatasetFails then Except.error ExportError.archiveFailure
             else Except.ok (addJsonToArchive [] ("chat_" ++ chatId ++ "_dataset.json")
                    (ArchivePayload.dataset ⟨formattedData⟩))
             : Except ExportError Archive) with
      | Except.error e => Except.error e
      | Except.ok archive1 =>
        match (if env.addInfoFails then Except.error ExportError.archiveFailure
               else Except.ok (addJsonToArchive archive1 "dataset_info.json"
                      (ArchivePayload.info ⟨"chat_" ++ chatId ++ "_dataset.json",
                        "sharegpt", ⟨"conversations"⟩⟩))
               : Except ExportError Archive) with
        | Except.error e => Except.error e
        | Except.ok archive2 =>
          if env.finalizeFails then Except.error ExportError.archiveFailure
          else Except.ok (archive2,
                 ⟨pathJoin tmpdir ("DatasetLoom-" ++ projectId ++ "-" ++ chatId ++ ".zip"),
                  "DatasetLoom-" ++ projectId ++ "-" ++ chatId ++ ".zip"⟩)

/-- `exportChatDataset` (lines 199-244).  `createWriteStream(zipPath)` creates the
destination file before the `try` block; on success the archive sits at the destination;
on any throw, line 241 deletes the destination file (best-effort) and line 242 re-throws
the original error. -/
def exportChatDataset (env : ExportEnv) (msgDb : List ChatMessages)
    (projectId chatId : String) : ExportOutcome :=
  match exportBody env msgDb projectId chatId with
  | Except.ok res => ⟨Except.ok res.2, true, res.1⟩
  | Except.error e => ⟨Except.error e, false, []⟩

/-! ## Lemmas about formatting and the export body -/

/-- Every error `formatMessage` throws is a malformed-content error. -/
theorem formatMessage_error {m : ChatMessages} {e : ExportError}
    (h : formatMessage m = Except.error e) : e = ExportError.malformedContent := by
  unfold formatMessage at h
  split at h
  · exact (Except.error.inj h).symm
  · split at h
    · exact (Except.error.inj h).symm
    · exact absurd h (by simp)

/-- A successful `formatAll` formats each message in order. -/
theorem formatAll_ok :
    ∀ {ms : List ChatMessages} {convs : List ShareGptEntry},
      formatAll ms = Except.ok convs →
      convs.length = ms.length ∧
      ∀ i (h1 : i < ms.length) (h2 : i < convs.length),
        formatMessage (ms.get ⟨i, h1⟩) = Except.ok (convs.get ⟨i, h2⟩)
  | [], convs, h => by
      have hc : convs = [] := (Except.ok.inj h).symm
      subst hc
      exact ⟨rfl, fun i h1 _ => absurd h1 (Nat.not_lt_zero i)⟩
  | m :: ms, convs, h => by
      unfold formatAll at h
      cases hm : formatMessage m with
      | error e => rw [hm] at h; exact absurd h (by simp)
      | ok entry =>
          rw [hm] at h
          cases hrest : formatAll ms with
          | error e => rw [hrest] at h; exact absurd h (by simp)
          | ok rest =>
              rw [hrest] at h
              have hc : convs = entry :: rest := (Except.ok.inj h).symm
              subst hc
              obtain ⟨hlen, hpt⟩ := formatAll_ok hrest
              refine ⟨by simpa using hlen, ?_⟩
              intro i h1 h2
              cases i with
              | zero => simpa using hm
              | succ j =>
                  have hj1 : j < ms.length := by simpa using h1
                  have hj2 : j < rest.length := by simpa using h2
                  simpa using hpt j hj1 hj2

/-- If any message of the list fails to format, `formatAll` throws, and what it throws is
the malformed-content error. -/
theorem formatAll_error_of_mem :
    ∀ {ms : List ChatMessages} {m : ChatMessages} {e : ExportError},
      m ∈ ms → formatMessage m = Except.error e →
      formatAll ms = Except.error ExportError.malformedContent
  | [], m, e, hm, _ => absurd hm (List.not_mem_nil m)
  | m0 :: ms, m, e, hm, hbad => by
      unfold formatAll
      cases hm0 : formatMessage m0 with
      | error e0 =>
          have := formatMessage_error hm0
          subst this
          rfl
      | ok entry =>
          rcases List.mem_cons.mp hm with heq | hmem
          · subst heq
            rw [hm0] at hbad
            exact absurd hbad (by simp)
          · rw [formatAll_error_of_mem hmem hbad]

/-- A successfully formatted message decodes, has a first `text` part, and maps to the
two-party `{from, value}` entry. -/
theorem formatMessage_ok {m : ChatMessages} {entry : ShareGptEntry}
    (h : formatMessage m = Except.ok entry) :
    ∃ ps part, m.parts = PartsEnc.decoded ps ∧
      ps.find? (fun q => q.type == "text") = some part ∧
      entry = ⟨if m.role == "user" then "human" else "gpt", part.text⟩ := by
  obtain ⟨mid, mchat, mrole, mparts, mca⟩ := m
  cases mparts with
  | malformed => exact absurd h (by simp [formatMessage])
  | decoded ps =>
      simp only [formatMessage] at h
      cases hfind : ps.find? (fun q => q.type == "text") with
      | none => rw [hfind] at h; exact absurd h (by simp)
      | some part =>
          rw [hfind] at h
          exact ⟨ps, part, rfl, hfind, (Except.ok.inj h).symm⟩

/-- A message with undecodable parts or no `text` part formats to the malformed-content
error. -/
theorem formatMessage_bad {m : ChatMessages}
    (hbad : m.parts = PartsEnc.malformed ∨
            ∃ ps, m.parts = PartsEnc.decoded ps ∧
              ps.find? (fun q => q.type == "text") = none) :
    formatMessage m = Except.error ExportError.malformedContent := by
  obtain ⟨mid, mchat, mrole, mparts, mca⟩ := m
  rcases hbad with hmal | ⟨ps, hps, hfind⟩
  · simp only at hmal
    rw [show mparts = PartsEnc.malformed from hmal]
    rfl
  · simp only at hps
    rw [show mparts = PartsEnc.decoded ps from hps]
    simp only [formatMessage]
    rw [hfind]

/-- Characterization of a successful export body: no external step failed, every message
formatted, and the archive holds exactly the dataset entry followed by the manifest. -/
theorem exportBody_ok {env : ExportEnv} {msgDb : List ChatMessages}
    {projectId chatId : String} {ar : Archive} {res : ExportResult}
    (h : exportBody env msgDb projectId chatId = Except.ok (ar, res)) :
    ∃ convs, formatAll (getMessagesByChatId msgDb chatId) = Except.ok convs ∧
      ar = [("chat_" ++ chatId ++ "_dataset.json", ArchivePayload.dataset ⟨convs⟩),
            ("dataset_info.json", ArchivePayload.info
              ⟨"chat_" ++ chatId ++ "_dataset.json", "sharegpt", ⟨"conversations"⟩⟩)] ∧
      res = ⟨pathJoin tmpdir ("DatasetLoom-" ++ projectId ++ "-" ++ chatId ++ ".zip"),
             "DatasetLoom-" ++ projectId ++ "-" ++ chatId ++ ".zip"⟩ := by
  unfold exportBody at h
  by_cases h1 : env.fetchFails = true
  · rw [h1] at h
    exact absurd h (by simp)
  · rw [Bool.not_eq_true] at h1
    rw [h1] at h
    simp only [Bool.false_eq_true, if_false] at h
    cases hfa : formatAll (getMessagesByChatId msgDb chatId) with
    | error e => rw [hfa] at h; exact absurd h (by simp)
    | ok convs =>
        rw [hfa] at h
        by_cases h2 : env.addDatasetFails = true
        · rw [h2] at h
          exact absurd h (by simp)
        · rw [Bool.not_eq_true] at h2
          rw [h2] at h
          simp only [Bool.false_eq_true, if_false] at h
          by_cases h3 : env.addInfoFails = true
          · rw [h3] at h
            exact absurd h (by simp)
          · rw [Bool.not_eq_true] at h3
            rw [h3] at h
            simp only [Bool.false_eq_true, if_false] at h
            by_cases h4 : env.finalizeFails = true
            · rw [h4] at h
              exact absurd h (by simp)
            · rw [Bool.not_eq_true] at h4
              rw [h4] at h
              simp only [Bool.false_eq_true, if_false, addJsonToArchive,
                List.nil_append] at h
              have hpair := Except.ok.inj h
              injection hpair with h5 h6
              refine ⟨convs, rfl, ?_, h6.symm⟩
              rw [← h5]
              rfl

/-- When the fetch succeeds but formatting throws, the export body throws that error. -/
theorem exportBody_error_formatAll {env : ExportEnv} {msgDb : List ChatMessages}
    {projectId chatId : String} {e : ExportError}
    (hf : env.fetchFails = false)
    (hfa : formatAll (getMessagesByChatId msgDb chatId) = Except.error e) :
    exportBody env msgDb projectId chatId = Except.error e := by
  unfold exportBody
  rw [hf]
  simp only [Bool.false_eq_true, if_false]
  rw [hfa]

/-! ## Claims C5, C6, C7, C10 -/

/-- The success contract of `exportChatDataset` for the result `r`: the deterministic
file name and path; the archive holds exactly the dataset entry
`chat_<chatId>_dataset.json` followed by the manifest `dataset_info.json` with the
ShareGPT format identifier and column mapping; and the conversations list has one entry
per stored message of the chat, in ascending `createdAt` order, each entry being
`{from, value}` with `from` = "human" exactly for role `user` (else "gpt") and `value`
the text of the first part of type `text`. -/
def ExportSuccessSpec (env : ExportEnv) (msgDb : List ChatMessages)
    (projectId chatId : String) (r : ExportResult) : Prop :=
  r.filename = "DatasetLoom-" ++ projectId ++ "-" ++ chatId ++ ".zip" ∧
  r.filePath = pathJoin tmpdir r.filename ∧
  ∃ convs,
    (exportChatDataset env msgDb projectId chatId).archive =
      [("chat_" ++ chatId ++ "_dataset.json", ArchivePayload.dataset ⟨convs⟩),
       ("dataset_info.json", ArchivePayload.info
         ⟨"chat_" ++ chatId ++ "_dataset.json", "sharegpt", ⟨"conversations"⟩⟩)] ∧
    convs.length = (getMessagesByChatId msgDb chatId).length ∧
    List.Sorted msgAsc (getMessagesByChatId msgDb chatId) ∧
    (getMessagesByChatId msgDb chatId).Perm
      (msgDb.filter (fun m => m.chatId == chatId)) ∧
    ∀ i (h1 : i < (getMessagesByChatId msgDb chatId).length) (h2 : i < convs.length),
      ∃ ps part,
        ((getMessagesByChatId msgDb chatId).get ⟨i, h1⟩).parts = PartsEnc.decoded ps ∧
        ps.find? (fun q => q.type == "text") = some part ∧
        convs.get ⟨i, h2⟩ =
          ⟨if ((getMessagesByChatId msgDb chatId).get ⟨i, h1⟩).role == "user"
            then "human" else "gpt", part.text⟩

/-- C5: on success, `exportChatDataset` returns the deterministic
`DatasetLoom-<projectId>-<chatId>.zip` name and its tmp path, and the archive contains
exactly the dataset JSON (one chronological `{from, value}` entry per stored message of
the chat) and the `dataset_info.json` manifest. -/
theorem c5_export_success_shape (env : ExportEnv) (msgDb : List ChatMessages)
    (projectId chatId : String) (r : ExportResult)
    (h : (exportChatDataset env msgDb projectId chatId).result = Except.ok r) :
    ExportSuccessSpec env msgDb projectId chatId r := by
  cases hb : exportBody env msgDb projectId chatId with
  | error e =>
      unfold exportChatDataset at h
      rw [hb] at h
      exact absurd h (by simp)
  | ok pair =>
      obtain ⟨ar, res⟩ := pair
      obtain ⟨convs, hfa, har, hres⟩ := exportBody_ok hb
      have hout : exportChatDataset env msgDb projectId chatId = ⟨Except.ok res, true, ar⟩ := by
        unfold exportChatDataset
        rw [hb]
      have hr : r = res := by
        rw [hout] at h
        exact (Except.ok.inj h).symm
      obtain ⟨hlen, hpt⟩ := formatAll_ok hfa
      refine ⟨by rw [hr, hres], by rw [hr, hres], convs, ?_, hlen, ?_, ?_, ?_⟩
      · rw [hout, har]
      · exact List.sorted_insertionSort msgAsc _
      · exact List.perm_insertionSort msgAsc _
      · intro i h1 h2
        exact formatMessage_ok (hpt i h1 h2)

/-- Messages of the chat "C": a user turn "hi" then an assistant turn "hello". -/
def exMsgs : List ChatMessages :=
  [⟨"m1", "C", "user", PartsEnc.decoded [⟨"text", "hi"⟩], 1⟩,
   ⟨"m2", "C", "assistant", PartsEnc.decoded [⟨"text", "hello"⟩], 2⟩]

/-- Witness for C5 on the two-message chat "C" of project "P". -/
theorem c5_export_success_shape_witness :
    (exportChatDataset envOk exMsgs "P" "C").result =
      Except.ok ⟨pathJoin tmpdir "DatasetLoom-P-C.zip", "DatasetLoom-P-C.zip"⟩ ∧
    ExportSuccessSpec envOk exMsgs "P" "C"
      ⟨pathJoin tmpdir "DatasetLoom-P-C.zip", "DatasetLoom-P-C.zip"⟩ :=
  ⟨by rfl, c5_export_success_shape envOk exMsgs "P" "C" _ (by rfl)⟩

/-- C6: whenever `exportChatDataset` fails — whatever step threw — the thrown error is
re-raised unchanged as the result, and no file is left at the destination path (and no
archive contents exist). -/
theorem c6_export_atomicity (env : ExportEnv) (msgDb : List ChatMessages)
    (projectId chatId : String) (e : ExportError)
    (h : (exportChatDataset env msgDb projectId chatId).result = Except.error e) :
    (exportChatDataset env msgDb projectId chatId).fileExists = false ∧
    (exportChatDataset env msgDb projectId chatId).archive = [] := by
  unfold exportChatDataset at h ⊢
  cases hb : exportBody env msgDb projectId chatId with
  | error e0 => exact ⟨rfl, rfl⟩
  | ok res =>
      rw [hb] at h
      exact absurd h (by simp)

/-- Witness for C6: a failing `finalize` aborts the export and leaves no file. -/
theorem c6_export_atomicity_witness :
    (exportChatDataset ⟨false, false, false, true⟩ exMsgs "P" "C").result =
      Except.error ExportError.archiveFailure ∧
    ((exportChatDataset ⟨false, false, false, true⟩ exMsgs "P" "C").fileExists = false ∧
     (exportChatDataset ⟨false, false, false, true⟩ exMsgs "P" "C").archive = []) :=
  ⟨by rfl, c6_export_atomicity ⟨false, false, false, true⟩ exMsgs "P" "C"
    ExportError.archiveFailure (by rfl)⟩

/-- C7: if any message of the chat has undecodable parts or no part of type `text`, the
whole export fails with the malformed-content error and leaves no file — it never
produces an entry with a defaulted value. -/
theorem c7_malformed_content_aborts (env : ExportEnv) (msgDb : List ChatMessages)
    (projectId chatId : String) (m : ChatMessages)
    (hf : env.fetchFails = false)
    (hm : m ∈ getMessagesByChatId msgDb chatId)
    (hbad : m.parts = PartsEnc.malformed ∨
            ∃ ps, m.parts = PartsEnc.decoded ps ∧
              ps.find? (fun q => q.type == "text") = none) :
    (exportChatDataset env msgDb projectId chatId).result =
      Except.error ExportError.malformedContent ∧
    (exportChatDataset env msgDb projectId chatId).fileExists = false := by
  have hfmt : formatMessage m = Except.error ExportError.malformedContent :=
    formatMessage_bad hbad
  have hfa : formatAll (getMessagesByChatId msgDb chatId) =
      Except.error ExportError.malformedContent :=
    formatAll_error_of_mem hm hfmt
  have hb : exportBody env msgDb projectId chatId =
      Except.error ExportError.malformedContent :=
    exportBody_error_formatAll hf hfa
  unfold exportChatDataset
  rw [hb]
  exact ⟨rfl, rfl⟩

/-- Messages of chat "D": a well-formed turn followed by one whose parts have no `text`
segment. -/
def exBadMsgs : List ChatMessages :=
  [⟨"m1", "D", "user", PartsEnc.decoded [⟨"text", "hi"⟩], 1⟩,
   ⟨"m2", "D", "assistant", PartsEnc.decoded [⟨"image", "img.png"⟩], 2⟩]

/-- Witness for C7 on a chat whose second message lacks a `text` part. -/
theorem c7_malformed_content_aborts_witness :
    ((⟨false, false, false, false⟩ : ExportEnv).fetchFails = false ∧
      (⟨"m2", "D", "assistant", PartsEnc.decoded [⟨"image", "img.png"⟩], 2⟩ : ChatMessages)
        ∈ getMessagesByChatId exBadMsgs "D") ∧
    ((exportChatDataset ⟨false, false, false, false⟩ exBadMsgs "P" "D").result =
        Except.error ExportError.malformedContent ∧
      (exportChatDataset ⟨false, false, false, false⟩ exBadMsgs "P" "D").fileExists = false) :=
  ⟨⟨by decide, by decide⟩,
   c7_malformed_content_aborts ⟨false, false, false, false⟩ exBadMsgs "P" "D"
     ⟨"m2", "D", "assistant", PartsEnc.decoded [⟨"image", "img.png"⟩], 2⟩
     (by decide) (by decide)
     (Or.inr ⟨[⟨"image", "img.png"⟩], rfl, by decide⟩)⟩

/-- C10: exporting a chat with no stored messages succeeds, returning the deterministic
path and name, with a dataset entry whose `conversations` list is empty (plus the usual
manifest). -/
theorem c10_empty_chat_export (msgDb : List ChatMessages) (projectId chatId : String)
    (hempty : msgDb.filter (fun m => m.chatId == chatId) = []) :
    exportChatDataset envOk msgDb projectId chatId =
      ⟨Except.ok ⟨pathJoin tmpdir ("DatasetLoom-" ++ projectId ++ "-" ++ chatId ++ ".zip"),
                  "DatasetLoom-" ++ projectId ++ "-" ++ chatId ++ ".zip"⟩,
       true,
       [("chat_" ++ chatId ++ "_dataset.json", ArchivePayload.dataset ⟨[]⟩),
        ("dataset_info.json", ArchivePayload.info
          ⟨"chat_" ++ chatId ++ "_dataset.json", "sharegpt", ⟨"conversations"⟩⟩)]⟩ := by
  have hmsgs : getMessagesByChatId msgDb chatId = [] := by
    unfold getMessagesByChatId
    rw [hempty]
    rfl
  unfold exportChatDataset exportBody
  rw [hmsgs]
  simp [envOk, addJsonToArchive, formatAll]

/-- Witness for C10: `exMsgs` stores no message for chat id "E". -/
theorem c10_empty_chat_export_witness :
    exMsgs.filter (fun m => m.chatId == "E") = [] ∧
    exportChatDataset envOk exMsgs "P" "E" =
      ⟨Except.ok ⟨pathJoin tmpdir ("DatasetLoom-" ++ "P" ++ "-" ++ "E" ++ ".zip"),
                  "DatasetLoom-" ++ "P" ++ "-" ++ "E" ++ ".zip"⟩,
       true,
       [("chat_" ++ "E" ++ "_dataset.json", ArchivePayload.dataset ⟨[]⟩),
        ("dataset_info.json", ArchivePayload.info
          ⟨"chat_" ++ "E" ++ "_dataset.json", "sharegpt", ⟨"conversations"⟩⟩)]⟩ :=
  ⟨by decide, c10_empty_chat_export exMsgs "P" "E" (by decide)⟩

/-! ## Claim C4 (cursor symmetry) -/

/-- Following the spec's words for P3 ("a page whose item set is the one preceding `X`"):
the `limit` chats immediately preceding cursor `x` in the descending listing, i.e. the
`limit` oldest among the matching chats strictly newer than `x`, still in descending
order. -/
def specPagePreceding (db : List Chat) (uid pid : String) (limit : Nat) (x : Chat) :
    List Chat :=
  let newer := sortChatsDesc ((db.filter (baseWhere uid pid)).filter
    (fun c => decide (x.createdAt < c.createdAt)))
  newer.drop (newer.length - limit)

/-- C4 counterexample: on the five-chat store with `limit = 1`, paginating forward from
cursor "a" (the oldest chat) returns the page [e] — the newest chat, not a neighbour of
"a" — and paginating backward from its first item "e" returns [d], while the page
preceding "a" is [b]. -/
theorem c4_cursor_symmetry_counterexample :
    getChatsByUserId exDb ⟨"u", "p", 1, some "a", none⟩ =
      Except.ok ⟨[⟨"e", "u", "p", ChatVisibilityType.PRIVATE, 5⟩], true⟩ ∧
    getChatsByUserId exDb ⟨"u", "p", 1, none, some "e"⟩ =
      Except.ok ⟨[⟨"d", "u", "p", ChatVisibilityType.PRIVATE, 4⟩], true⟩ ∧
    specPagePreceding exDb "u" "p" 1 ⟨"a", "u", "p", ChatVisibilityType.PRIVATE, 1⟩ =
      [⟨"b", "u", "p", ChatVisibilityType.PRIVATE, 2⟩] ∧
    [(⟨"d", "u", "p", ChatVisibilityType.PRIVATE, 4⟩ : Chat)] ≠
      [(⟨"b", "u", "p", ChatVisibilityType.PRIVATE, 2⟩ : Chat)] :=
  ⟨by rfl, by rfl, by rfl, by decide⟩

theorem head_take_succ (l : List Chat) (n : Nat) :
    (l.take (n + 1)).head? = l.head? := by
  cases l <;> rfl

theorem mem_of_head_eq {l : List Chat} {y : Chat} (h : l.head? = some y) : y ∈ l := by
  cases l with
  | nil => exact absurd h (by simp)
  | cons a t =>
      have ha : a = y := by simpa using h
      rw [← ha]
      exact List.mem_cons_self a t

/-- Filtering on a conjunction is filtering twice. -/
theorem filter_and (p q : Chat → Bool) (l : List Chat) :
    l.filter (fun c => p c && q c) = (l.filter p).filter q := by
  induction l with
  | nil => rfl
  | cons a t ih =>
      cases hp : p a <;> cases hq : q a <;>
        simp [List.filter_cons, hp, hq, ih]

/-- Two sorted lists that are permutations of each other and have pairwise-distinct
`createdAt` keys are equal (antisymmetry holds on such lists). -/
theorem sorted_perm_distinct_eq {l1 l2 : List Chat} (hp : l1.Perm l2)
    (hs1 : List.Sorted chatDesc l1) (hs2 : List.Sorted chatDesc l2)
    (hd : List.Pairwise (fun a b => a.createdAt ≠ b.createdAt) l1) : l1 = l2 := by
  induction l1 generalizing l2 with
  | nil => exact hp.symm.eq_nil.symm
  | cons a t1 ih =>
      cases l2 with
      | nil => exact absurd hp.eq_nil (by simp)
      | cons b t2 =>
          have hab : a = b := by
            by_cases hne : a = b
            · exact hne
            · have ha2 : a ∈ b :: t2 := hp.mem_iff.mp (List.mem_cons_self a t1)
              have hat2 : a ∈ t2 := by
                rcases List.mem_cons.mp ha2 with h1 | h1
                · exact absurd h1 hne
                · exact h1
              have hb1 : b ∈ a :: t1 := hp.mem_iff.mpr (List.mem_cons_self b t2)
              have hbt1 : b ∈ t1 := by
                rcases List.mem_cons.mp hb1 with h1 | h1
                · exact absurd h1.symm hne
                · exact h1
              have hle1 : b.createdAt ≤ a.createdAt := List.rel_of_sorted_cons hs1 b hbt1
              have hle2 : a.createdAt ≤ b.createdAt := List.rel_of_sorted_cons hs2 a hat2
              have hne2 : a.createdAt ≠ b.createdAt := (List.pairwise_cons.mp hd).1 b hbt1
              omega
          subst hab
          have heq := ih hp.cons_inv hs1.of_cons hs2.of_cons (List.pairwise_cons.mp hd).2
          rw [heq]

/-- C4 amended: paginating forward from a cursor X and then backward from the first item
`y` of the returned page does NOT return to the page preceding X; because the forward
branch orders descending and takes from the top, `y` is the newest matching chat
outright, so the backward page is the page following the global first page — the full
newest-first listing with its first element dropped, truncated to `limit` — independent
of X (timestamps assumed pairwise distinct among matching rows). -/
theorem c4_cursor_symmetry_amended (db : List Chat) (uid pid sa : String) (L : Nat)
    (X y : Chat) (pg1 pg2 : ChatPage)
    (hsa : sa ≠ "")
    (hX : findUniqueChat db sa = some X)
    (h1 : getChatsByUserId db ⟨uid, pid, L, some sa, none⟩ = Except.ok pg1)
    (hy : pg1.chats.head? = some y)
    (hyid : y.id ≠ "")
    (hY : findUniqueChat db y.id = some y)
    (hdist : List.Pairwise (fun a b => a.createdAt ≠ b.createdAt)
      (db.filter (baseWhere uid pid)))
    (h2 : getChatsByUserId db ⟨uid, pid, L, none, some y.id⟩ = Except.ok pg2) :
    pg2.chats = ((sortChatsDesc (db.filter (baseWhere uid pid))).drop 1).take L := by
  have htr1 : truthy (some sa) = true := by simp [truthy, hsa]
  have hres1 : resolvedWhere db ⟨uid, pid, L, some sa, none⟩ =
      some (fun c => baseWhere uid pid c && decide (X.createdAt < c.createdAt)) := by
    unfold resolvedWhere
    simp [truthy, hsa, hX]
  have hchats1 : pg1.chats =
      (sortChatsDesc (db.filter
        (fun c => baseWhere uid pid c && decide (X.createdAt < c.createdAt)))).take L := by
    have hpg := Except.ok.inj (h1.symm.trans (getChatsByUserId_ok_of_resolved hres1))
    rw [hpg]
  have hyf : (sortChatsDesc (db.filter
      (fun c => baseWhere uid pid c && decide (X.createdAt < c.createdAt)))).head? =
      some y := by
    rw [hchats1] at hy
    cases L with
    | zero => simp at hy
    | succ n => rwa [head_take_succ] at hy
  have hyw1 : y ∈ db.filter
      (fun c => baseWhere uid pid c && decide (X.createdAt < c.createdAt)) :=
    mem_sortChatsDesc.mp (mem_of_head_eq hyf)
  obtain ⟨hydb, hyw⟩ := List.mem_filter.mp hyw1
  have hybase : baseWhere uid pid y = true := ((Bool.and_eq_true _ _).mp hyw).1
  have hylt : X.createdAt < y.createdAt :=
    of_decide_eq_true ((Bool.and_eq_true _ _).mp hyw).2
  have hyB : y ∈ db.filter (baseWhere uid pid) := List.mem_filter.mpr ⟨hydb, hybase⟩
  -- y is the newest matching chat outright
  have hsymm : Symmetric (fun a b : Chat => a.createdAt ≠ b.createdAt) :=
    fun _ _ h => Ne.symm h
  have hmax : ∀ c ∈ db.filter (baseWhere uid pid), c.createdAt ≤ y.createdAt := by
    intro c hc
    obtain ⟨hcdb, hcbase⟩ := List.mem_filter.mp hc
    by_cases hnf : X.createdAt < c.createdAt
    · have hcw1 : c ∈ db.filter
          (fun c => baseWhere uid pid c && decide (X.createdAt < c.createdAt)) :=
        List.mem_filter.mpr ⟨hcdb, by simp [hcbase, hnf]⟩
      have hcf := mem_sortChatsDesc.mpr hcw1
      obtain ⟨ft, hft⟩ : ∃ ft, sortChatsDesc (db.filter
          (fun c => baseWhere uid pid c && decide (X.createdAt < c.createdAt))) =
          y :: ft := by
        cases hl : sortChatsDesc (db.filter
            (fun c => baseWhere uid pid c && decide (X.createdAt < c.createdAt))) with
        | nil => rw [hl] at hyf; exact absurd hyf (by simp)
        | cons z t =>
            rw [hl] at hyf
            have hz : z = y := by simpa using hyf
            exact ⟨t, by rw [hz]⟩
      rw [hft] at hcf
      rcases List.mem_cons.mp hcf with hceq | hcft
      · rw [hceq]
      · have hsorted : List.Sorted chatDesc (y :: ft) := by
          rw [← hft]
          exact List.sorted_insertionSort chatDesc _
        exact List.rel_of_sorted_cons hsorted c hcft
    · have hcx : c.createdAt ≤ X.createdAt := Nat.le_of_not_lt hnf
      omega
  have hsSorted : List.Sorted chatDesc (sortChatsDesc (db.filter (baseWhere uid pid))) :=
    List.sorted_insertionSort chatDesc _
  have hsPerm : (sortChatsDesc (db.filter (baseWhere uid pid))).Perm
      (db.filter (baseWhere uid pid)) :=
    List.perm_insertionSort chatDesc _
  have hyS : y ∈ sortChatsDesc (db.filter (baseWhere uid pid)) :=
    mem_sortChatsDesc.mpr hyB
  -- the head of the full sorted listing is y
  obtain ⟨t, hst⟩ : ∃ t, sortChatsDesc (db.filter (baseWhere uid pid)) = y :: t := by
    cases hl : sortChatsDesc (db.filter (baseWhere uid pid)) with
    | nil => rw [hl] at hyS; exact absurd hyS (by simp)
    | cons z t =>
        have hzB : z ∈ db.filter (baseWhere uid pid) := by
          have hzs : z ∈ sortChatsDesc (db.filter (baseWhere uid pid)) := by
            rw [hl]
            exact List.mem_cons_self z t
          exact mem_sortChatsDesc.mp hzs
        by_cases hzy : z = y
        · exact ⟨t, by rw [hzy]⟩
        · have hyt : y ∈ t := by
            rw [hl] at hyS
            rcases List.mem_cons.mp hyS with h | h
            · exact absurd h.symm hzy
            · exact h
          have hle1 : y.createdAt ≤ z.createdAt := by
            have hsz : List.Sorted chatDesc (z :: t) := by
              rw [← hl]
              exact hsSorted
            exact List.rel_of_sorted_cons hsz y hyt
          have hle2 : z.createdAt ≤ y.createdAt := hmax z hzB
          have hne : z.createdAt ≠ y.createdAt :=
            List.Pairwise.forall hsymm hdist hzB hyB hzy
          exact absurd (Nat.le_antisymm hle2 hle1) hne
  -- the backward call
  have hres2 : resolvedWhere db ⟨uid, pid, L, none, some y.id⟩ =
      some (fun c => baseWhere uid pid c && decide (c.createdAt < y.createdAt)) := by
    unfold resolvedWhere
    simp [truthy, hyid, hY]
  have hchats2 : pg2.chats =
      (sortChatsDesc (db.filter
        (fun c => baseWhere uid pid c && decide (c.createdAt < y.createdAt)))).take L := by
    have hpg := Except.ok.inj (h2.symm.trans (getChatsByUserId_ok_of_resolved hres2))
    rw [hpg]
  have hff : db.filter
      (fun c => baseWhere uid pid c && decide (c.createdAt < y.createdAt)) =
      (db.filter (baseWhere uid pid)).filter
        (fun c => decide (c.createdAt < y.createdAt)) :=
    filter_and (baseWhere uid pid) (fun c => decide (c.createdAt < y.createdAt)) db
  have hdistS : List.Pairwise (fun a b => a.createdAt ≠ b.createdAt)
      (sortChatsDesc (db.filter (baseWhere uid pid))) :=
    (hsPerm.pairwise_iff (fun h => Ne.symm h)).mpr hdist
  have htlt : ∀ c ∈ t, decide (c.createdAt < y.createdAt) = true := by
    intro c hct
    have hle : c.createdAt ≤ y.createdAt := by
      have hsy : List.Sorted chatDesc (y :: t) := by
        rw [← hst]
        exact hsSorted
      exact List.rel_of_sorted_cons hsy c hct
    have hne : y.createdAt ≠ c.createdAt := by
      have hdS := hdistS
      rw [hst] at hdS
      exact (List.pairwise_cons.mp hdS).1 c hct
    simp only [decide_eq_true_eq]
    omega
  have hsf : (sortChatsDesc (db.filter (baseWhere uid pid))).filter
      (fun c => decide (c.createdAt < y.createdAt)) = t := by
    rw [hst, List.filter_cons]
    have h0 : decide (y.createdAt < y.createdAt) = false := by simp
    rw [h0]
    simp only [Bool.false_eq_true, if_false]
    exact List.filter_eq_self.mpr htlt
  have hperm2 : (sortChatsDesc ((db.filter (baseWhere uid pid)).filter
      (fun c => decide (c.createdAt < y.createdAt)))).Perm t := by
    have hp1 := List.perm_insertionSort chatDesc
      ((db.filter (baseWhere uid pid)).filter (fun c => decide (c.createdAt < y.createdAt)))
    have hp2 := (hsPerm.filter (fun c => decide (c.createdAt < y.createdAt))).symm
    rw [hsf] at hp2
    exact hp1.trans hp2
  have hsorted2 : List.Sorted chatDesc (sortChatsDesc ((db.filter (baseWhere uid pid)).filter
      (fun c => decide (c.createdAt < y.createdAt)))) :=
    List.sorted_insertionSort chatDesc _
  have hsortedt : List.Sorted chatDesc t := by
    have hsy : List.Sorted chatDesc (y :: t) := by
      rw [← hst]
      exact hsSorted
    exact hsy.of_cons
  have hdist2 : List.Pairwise (fun a b => a.createdAt ≠ b.createdAt)
      (sortChatsDesc ((db.filter (baseWhere uid pid)).filter
        (fun c => decide (c.createdAt < y.createdAt)))) := by
    have hdBf : List.Pairwise (fun a b => a.createdAt ≠ b.createdAt)
        ((db.filter (baseWhere uid pid)).filter
          (fun c => decide (c.createdAt < y.createdAt))) :=
      hdist.sublist (List.filter_sublist (db.filter (baseWhere uid pid)))
    exact ((List.perm_insertionSort chatDesc _).pairwise_iff (fun h => Ne.symm h)).mpr hdBf
  have heqt := sorted_perm_distinct_eq hperm2 hsorted2 hsortedt hdist2
  rw [hchats2, hff, heqt, hst]
  rfl

/-- Witness for the amended C4 on the five-chat store with `limit = 1` and cursor "a". -/
theorem c4_cursor_symmetry_amended_witness :
    (("a" : String) ≠ "" ∧
     findUniqueChat exDb "a" = some ⟨"a", "u", "p", ChatVisibilityType.PRIVATE, 1⟩ ∧
     getChatsByUserId exDb ⟨"u", "p", 1, some "a", none⟩ =
       Except.ok ⟨[⟨"e", "u", "p", ChatVisibilityType.PRIVATE, 5⟩], true⟩ ∧
     List.Pairwise (fun a b => a.createdAt ≠ b.createdAt)
       (exDb.filter (baseWhere "u" "p")) ∧
     getChatsByUserId exDb ⟨"u", "p", 1, none, some "e"⟩ =
       Except.ok ⟨[⟨"d", "u", "p", ChatVisibilityType.PRIVATE, 4⟩], true⟩) ∧
    (⟨[⟨"d", "u", "p", ChatVisibilityType.PRIVATE, 4⟩], true⟩ : ChatPage).chats =
      ((sortChatsDesc (exDb.filter (baseWhere "u" "p"))).drop 1).take 1 :=
  ⟨⟨by decide, by rfl, by rfl, by decide, by rfl⟩,
   c4_cursor_symmetry_amended exDb "u" "p" "a" 1
     ⟨"a", "u", "p", ChatVisibilityType.PRIVATE, 1⟩
     ⟨"e", "u", "p", ChatVisibilityType.PRIVATE, 5⟩
     ⟨[⟨"e", "u", "p", ChatVisibilityType.PRIVATE, 5⟩], true⟩
     ⟨[⟨"d", "u", "p", ChatVisibilityType.PRIVATE, 4⟩], true⟩
     (by decide) (by rfl) (by rfl) (by rfl) (by decide) (by rfl) (by decide) (by rfl)⟩

end DatasetLoom
